import Mathlib

set_option maxRecDepth 8000

/-!
Verification of the proto-compiler helper functions of the tendermint-rs
repository (`tools/proto-compiler/src/functions.rs`) and of the nullable
serializer (`proto/src/serializers/nullable.rs`).

The git repository, the filesystem walk and the file copies are modelled
abstractly: a repository is a pair of lookup functions, a walk is the list of
results it yields, and a copy is an oracle returning success or an error.
Panics (`unwrap`, `panic!` in the Rust source) are modelled as error values.
-/

/-! ## List and string helpers used by the models -/

/-- Drop the list `p` from the front of a list, or fail when it is not a
prefix.  This models Rust's `str::strip_prefix` at the character level. -/
def dropPre : List Char → List Char → Option (List Char)
  | [], s => some s
  | _ :: _, [] => none
  | p :: ps, c :: cs => if p = c then dropPre ps cs else none

/-- Drop the list `suf` from the back of a list, or fail when it is not a
suffix.  This models Rust's `str::strip_suffix` at the character level. -/
def dropSuf (suf l : List Char) : Option (List Char) :=
  (dropPre suf.reverse l.reverse).map List.reverse

/-- Model of Rust `str::strip_prefix` on strings. -/
def stripPre (pre s : String) : Option String :=
  (dropPre pre.data s.data).map String.mk

/-- Model of Rust `str::strip_suffix` on strings. -/
def stripSuf (suf s : String) : Option String :=
  (dropSuf suf.data s.data).map String.mk

/-- Boolean model of Rust `str::starts_with`. -/
def strHasPre (pre s : String) : Bool :=
  (dropPre pre.data s.data).isSome

theorem dropPre_append (p r : List Char) : dropPre p (p ++ r) = some r := by
  induction p with
  | nil => rfl
  | cons c ps ih => simp [dropPre, ih]

theorem str_data_append (a b : String) : (a ++ b).data = a.data ++ b.data := by
  cases a; cases b; rfl

theorem stripPre_append (pre r : String) : stripPre pre (pre ++ r) = some r := by
  unfold stripPre
  rw [str_data_append, dropPre_append]
  rfl

theorem stripSuf_append (r suf : String) : stripSuf suf (r ++ suf) = some r := by
  unfold stripSuf dropSuf
  rw [str_data_append, List.reverse_append, dropPre_append]
  simp [Function.comp, List.reverse_reverse]

/-! ## Model of the git objects used by `find_reference_or_commit`

The function (functions.rs, lines 120-159) interacts with a `git2::Repository`
through two lookups only: `resolve_reference_from_short_name` and
`find_commit`.  A repository is therefore modelled as that pair of functions.
A reference carries the only two attributes the code reads: whether it is a
local branch (`Reference::is_branch`) and the commit it peels to
(`Reference::peel_to_commit`, `none` when peeling fails). -/

/-- A git commit, identified by its 20 raw object-id bytes. -/
structure Commit where
  oid : List Nat
  deriving DecidableEq

/-- A git reference as observed by the resolver: its short name, whether it is
a local branch, and the commit it peels to (if any). -/
structure Reference where
  shortName : String
  isBranch : Bool
  peeled : Option Commit
  deriving DecidableEq

/-- Abstract repository: the two git lookups used by the resolver.
`resolveShort` models `resolve_reference_from_short_name` (`none` is the `Err`
case) and `findCommit` models `find_commit` on raw oid bytes. -/
structure Repo where
  resolveShort : String → Option Reference
  findCommit : List Nat → Option Commit

/-- The ways `find_reference_or_commit` can abort the process.  Each
constructor corresponds to one `panic!` or failed `unwrap` in the source. -/
inductive ResolveError where
  /-- The explicit
  `panic!("[error] => local branch names with 'origin/' prefix not supported")`.
  -/
  | originNotSupported
  /-- `try_reference.unwrap()` after the origin-prefixed re-attempt failed
  (functions.rs line 151). -/
  | originUnwrapFailed
  /-- Both `hex::decode` and `hex::decode_upper` failed (inner `unwrap` on
  line 136). -/
  | hexDecodeFailed
  /-- `Oid::from_bytes(..).unwrap()` failed: the decoded bytes are not a
  20-byte object id. -/
  | oidInvalid
  /-- `repo.find_commit(..).unwrap()` failed: no commit with that id. -/
  | commitNotFound
  /-- `reference.peel_to_commit().unwrap()` failed. -/
  | peelFailed
  deriving DecidableEq

/-- Value of a lower-case hex digit, as accepted by `subtle_encoding`'s
`hex::decode`. -/
def hexNibLower (c : Char) : Option Nat :=
  if '0' ≤ c ∧ c ≤ '9' then some (c.toNat - '0'.toNat)
  else if 'a' ≤ c ∧ c ≤ 'f' then some (c.toNat - 'a'.toNat + 10)
  else none

/-- Value of an upper-case hex digit, as accepted by `hex::decode_upper`. -/
def hexNibUpper (c : Char) : Option Nat :=
  if '0' ≤ c ∧ c ≤ '9' then some (c.toNat - '0'.toNat)
  else if 'A' ≤ c ∧ c ≤ 'F' then some (c.toNat - 'A'.toNat + 10)
  else none

/-- Hex-decode a character list two digits at a time; odd length or a
non-digit character fails.  This is the behaviour of `hex::decode` (with
`hexNibLower`) and `hex::decode_upper` (with `hexNibUpper`). -/
def hexDecodeWith (nib : Char → Option Nat) : List Char → Option (List Nat)
  | [] => some []
  | [_] => none
  | c1 :: c2 :: rest =>
    match nib c1, nib c2, hexDecodeWith nib rest with
    | some hi, some lo, some bs => some ((16 * hi + lo) :: bs)
    | _, _, _ => none

/-- Model of `Oid::from_bytes(..).unwrap()` followed by
`repo.find_commit(..).unwrap()` (functions.rs lines 137-141): the decoded
bytes must be a 20-byte object id naming an existing commit; the result then
carries no symbolic reference. -/
def lookupCommit (repo : Repo) (bs : List Nat) :
    Except ResolveError (Option Reference × Commit) :=
  if bs.length = 20 then
    match repo.findCommit bs with
    | some cm => .ok (none, cm)
    | none => .error .commitNotFound
  else .error .oidInvalid

/-- Model of `find_reference_or_commit` (functions.rs lines 120-159).
The control flow is translated branch for branch:
the short name is resolved directly, then with an `"origin/"` prefix, then as
a hex commit id (lower-case decoding first, then upper-case); a resolved
reference that is a local branch triggers the origin-prefixed re-attempt, and
a branch found after the prefix was used is the explicit
`originNotSupported` panic. -/
def find_reference_or_commit (repo : Repo) (commitish : String) :
    Except ResolveError (Option Reference × Commit) :=
  match repo.resolveShort commitish with
  | some ref =>
    if ref.isBranch then
      match repo.resolveShort ("origin/" ++ commitish) with
      | none => .error .originUnwrapFailed
      | some ref2 =>
        if ref2.isBranch then .error .originNotSupported
        else
          match ref2.peeled with
          | some cm => .ok (some ref2, cm)
          | none => .error .peelFailed
    else
      match ref.peeled with
      | some cm => .ok (some ref, cm)
      | none => .error .peelFailed
  | none =>
    match repo.resolveShort ("origin/" ++ commitish) with
    | some ref =>
      if ref.isBranch then .error .originNotSupported
      else
        match ref.peeled with
        | some cm => .ok (some ref, cm)
        | none => .error .peelFailed
    | none =>
      match hexDecodeWith hexNibLower commitish.data with
      | some bs => lookupCommit repo bs
      | none =>
        match hexDecodeWith hexNibUpper commitish.data with
        | some bs => lookupCommit repo bs
        | none => .error .hexDecodeFailed

/-! ## Concrete repositories used as counterexample and witness inputs -/

/-- A sample commit. -/
def cmA : Commit := ⟨[1]⟩

/-- Repository holding only the local branch `feature`, with no
remote-tracking counterpart. -/
def repoLocalOnly : Repo :=
  ⟨fun s => if s = "feature" then some ⟨"feature", true, some cmA⟩ else none,
   fun _ => none⟩

/-- The local branch `main` of `repoWithOrigin`. -/
def refLocalMain : Reference := ⟨"main", true, some cmA⟩

/-- The remote-tracking reference `origin/main` of `repoWithOrigin`. -/
def refOriginMain : Reference := ⟨"origin/main", false, some cmA⟩

/-- Repository holding the local branch `main` and the remote-tracking
reference `origin/main`. -/
def repoWithOrigin : Repo :=
  ⟨fun s =>
     if s = "main" then some refLocalMain
     else if s = "origin/main" then some refOriginMain
     else none,
   fun _ => none⟩

/-- Repository whose only reference is a local branch literally named
`origin/dev`. -/
def repoC2 : Repo :=
  ⟨fun s => if s = "origin/dev" then some ⟨"origin/dev", true, some cmA⟩ else none,
   fun _ => none⟩

/-- Repository with no references at all and a single commit whose object id
is twenty zero bytes. -/
def repoHex : Repo :=
  ⟨fun _ => none,
   fun bs => if bs = List.replicate 20 0 then some ⟨List.replicate 20 0⟩ else none⟩

/-! ## C1 -/

/-- C1, counterexample: the commitish `feature` resolves to a local branch of
`repoLocalOnly` and there is no `origin/feature` reference (no collision), yet
`find_reference_or_commit` does not fall back to the local branch: it panics
on the failed `unwrap` of the origin-prefixed re-attempt and returns no
reference at all. -/
theorem find_reference_or_commit_local_fallback_counterexample :
    find_reference_or_commit repoLocalOnly "feature" =
      .error .originUnwrapFailed ∧
    (find_reference_or_commit repoLocalOnly "feature").toOption = none := by
  constructor <;> rfl

/-- C1 (amended): for a commitish resolving as a short name to a local branch,
the resolver prefers the origin-prefixed reference when one exists with the
same short name (and is not itself a local branch); but when no origin-prefixed
reference exists it does not use the local branch: it aborts on the failed
`unwrap`. -/
theorem find_reference_or_commit_origin_preference (repo : Repo) (c : String)
    (r : Reference) (h1 : repo.resolveShort c = some r)
    (hb : r.isBranch = true) :
    (∀ r2 cm, repo.resolveShort ("origin/" ++ c) = some r2 →
      r2.isBranch = false → r2.peeled = some cm →
      find_reference_or_commit repo c = .ok (some r2, cm)) ∧
    (repo.resolveShort ("origin/" ++ c) = none →
      find_reference_or_commit repo c = .error .originUnwrapFailed) := by
  constructor
  · intro r2 cm h2 hb2 hp
    simp [find_reference_or_commit, h1, hb, h2, hb2, hp]
  · intro h2
    simp [find_reference_or_commit, h1, hb, h2]

/-- C1 witness: in `repoWithOrigin`, the commitish `main` resolves to the
local branch, and resolution goes to the remote-tracking `origin/main`. -/
theorem find_reference_or_commit_origin_preference_witness :
    repoWithOrigin.resolveShort "main" = some refLocalMain ∧
    find_reference_or_commit repoWithOrigin "main" =
      .ok (some refOriginMain, cmA) :=
  ⟨rfl,
   (find_reference_or_commit_origin_preference repoWithOrigin "main"
      refLocalMain rfl rfl).1 refOriginMain cmA rfl rfl rfl⟩

/-! ## C2 -/

/-- C2: when the short-name resolution that produced a branch reference
already went through the `origin/` prefix, or the origin-prefixed re-attempt
itself produces a branch reference, `find_reference_or_commit` aborts with the
explicit `local branch names with 'origin/' prefix not supported` panic, and
hence never returns either reference. -/
theorem find_reference_or_commit_ambiguous_branch_fails (repo : Repo)
    (c : String) (r : Reference)
    (h : (repo.resolveShort c = none ∧
            repo.resolveShort ("origin/" ++ c) = some r ∧ r.isBranch = true) ∨
         (∃ r0 : Reference, repo.resolveShort c = some r0 ∧
            r0.isBranch = true ∧
            repo.resolveShort ("origin/" ++ c) = some r ∧
            r.isBranch = true)) :
    find_reference_or_commit repo c = .error .originNotSupported := by
  rcases h with ⟨h1, h2, hb⟩ | ⟨r0, h1, hb0, h2, hb⟩
  · simp [find_reference_or_commit, h1, h2, hb]
  · simp [find_reference_or_commit, h1, hb0, h2, hb]

/-- C2 witness: in `repoC2` the commitish `dev` fails direct resolution, while
`origin/dev` resolves to a local branch; the resolver aborts with the explicit
diagnostic. -/
theorem find_reference_or_commit_ambiguous_branch_fails_witness :
    find_reference_or_commit repoC2 "dev" = .error .originNotSupported :=
  find_reference_or_commit_ambiguous_branch_fails repoC2 "dev"
    ⟨"origin/dev", true, some cmA⟩ (Or.inl ⟨rfl, rfl, rfl⟩)

/-! ## C3 -/

/-- C3: when both short-name resolutions fail, the commitish is decoded as a
hex commit id, lower-case decoding first, then upper-case; a 20-byte id naming
an existing commit is returned with no symbolic reference, and failure of both
decodings, or of the commit lookup, is fatal. -/
theorem find_reference_or_commit_hex_fallback (repo : Repo) (c : String)
    (h1 : repo.resolveShort c = none)
    (h2 : repo.resolveShort ("origin/" ++ c) = none) :
    (∀ bs cm,
      (hexDecodeWith hexNibLower c.data = some bs ∨
        (hexDecodeWith hexNibLower c.data = none ∧
          hexDecodeWith hexNibUpper c.data = some bs)) →
      bs.length = 20 → repo.findCommit bs = some cm →
      find_reference_or_commit repo c = .ok (none, cm)) ∧
    ((hexDecodeWith hexNibLower c.data = none ∧
        hexDecodeWith hexNibUpper c.data = none) →
      find_reference_or_commit repo c = .error .hexDecodeFailed) ∧
    (∀ bs,
      (hexDecodeWith hexNibLower c.data = some bs ∨
        (hexDecodeWith hexNibLower c.data = none ∧
          hexDecodeWith hexNibUpper c.data = some bs)) →
      bs.length = 20 → repo.findCommit bs = none →
      find_reference_or_commit repo c = .error .commitNotFound) := by
  refine ⟨?_, ?_, ?_⟩
  · intro bs cm hdec hlen hfind
    rcases hdec with hlow | ⟨hlow, hup⟩
    · simp [find_reference_or_commit, h1, h2, hlow, lookupCommit, hlen, hfind]
    · simp [find_reference_or_commit, h1, h2, hlow, hup, lookupCommit, hlen,
        hfind]
  · intro ⟨hlow, hup⟩
    simp [find_reference_or_commit, h1, h2, hlow, hup]
  · intro bs hdec hlen hfind
    rcases hdec with hlow | ⟨hlow, hup⟩
    · simp [find_reference_or_commit, h1, h2, hlow, lookupCommit, hlen, hfind]
    · simp [find_reference_or_commit, h1, h2, hlow, hup, lookupCommit, hlen,
        hfind]

/-- C3 witness: in `repoHex` no reference resolves, and the forty-character
lower-case hex commitish resolves to the all-zero commit with no reference. -/
theorem find_reference_or_commit_hex_fallback_witness :
    repoHex.resolveShort "0000000000000000000000000000000000000000" = none ∧
    find_reference_or_commit repoHex
        "0000000000000000000000000000000000000000" =
      .ok (none, ⟨List.replicate 20 0⟩) :=
  ⟨rfl,
   (find_reference_or_commit_hex_fallback repoHex
      "0000000000000000000000000000000000000000" rfl rfl).1
     (List.replicate 20 0) ⟨List.replicate 20 0⟩ (Or.inl (by decide))
     (by decide) (by decide)⟩

/-! ## Model of `copy_files` (functions.rs lines 161-191)

The filesystem is abstracted: the recursive walk of `src_dir` is the list of
results it yields (a walk error or a directory entry), each individual
`fs::copy` is an oracle returning success or an `io::Error`, and
`remove_dir_all` on the target directory is an oracle as well.  The target
directory is a flag (does it exist) plus the list of file names it holds. -/

/-- An `io::Error`, split into the `NotFound` kind and everything else. -/
inductive IOErr where
  | notFound
  | other (msg : String)
  deriving DecidableEq

/-- A directory entry as observed by `copy_files`: its file name and whether
it is a regular file. -/
structure DirEntry where
  fileName : String
  isFile : Bool
  deriving DecidableEq

/-- The environment of one `copy_files` run: the walk results for `src_dir`,
the outcome of copying each entry into the target, and the outcome of
`remove_dir_all(target_dir)` when the target directory exists (when it does
not exist, removal fails with `IOErr.notFound` regardless). -/
structure CopyEnv where
  walk : List (Except IOErr DirEntry)
  copyResult : DirEntry → Except IOErr Unit
  removeResult : Except IOErr Unit

/-- State of the target directory: whether it exists and the names of the
files it holds (as the log of names written; a later copy of the same name
overwrites on disk). -/
structure FSState where
  targetExists : Bool
  files : List String
  deriving DecidableEq

/-- Result of a `copy_files` run: normal return, or a panic carrying the
reported error list; either way the final target-directory state is kept. -/
inductive CopyOutcome where
  | ok (fs : FSState)
  | panicked (errors : List IOErr) (fs : FSState)
  deriving DecidableEq

/-- The per-entry results of the copy pipeline: walk errors pass through
(`let e = res?`), entries are kept when they are regular files whose name
starts with `tendermint.` (the `filter_entry` predicate), and each kept entry
is copied, yielding its file name on success or the copy error. -/
def walkResults (env : CopyEnv) : List (Except IOErr String) :=
  env.walk.filterMap fun r =>
    match r with
    | .error e => some (.error e)
    | .ok entry =>
      if entry.isFile && strHasPre "tendermint." entry.fileName then
        some ((env.copyResult entry).map fun _ => entry.fileName)
      else none

/-- The `Vec` of errors collected by the pipeline (walk errors and copy
errors, in walk order). -/
def copyErrors (env : CopyEnv) : List IOErr :=
  (walkResults env).filterMap fun r =>
    match r with
    | .error e => some e
    | .ok _ => none

/-- The names successfully copied into the target directory, in walk order. -/
def copiedNames (env : CopyEnv) : List String :=
  (walkResults env).filterMap fun r =>
    match r with
    | .ok n => some n
    | .error _ => none

/-- Target-directory state after `remove_dir_all(target_dir)` whose result is
discarded by `unwrap_or_default()`: on success the directory is gone; on any
error (`NotFound` because it was absent, or any other error) the state is
unchanged. -/
def afterRemove (env : CopyEnv) (fs0 : FSState) : FSState :=
  if fs0.targetExists then
    match env.removeResult with
    | .ok _ => ⟨false, []⟩
    | .error _ => fs0
  else fs0

/-- Target-directory state after `create_dir_all(target_dir).unwrap()`: an
absent directory is created empty, an existing one is left as is. -/
def afterCreate (fs : FSState) : FSState :=
  if fs.targetExists then fs else ⟨true, []⟩

/-- Target-directory state at the end of the run: every successful copy has
landed, whether or not errors occurred elsewhere. -/
def finalFS (env : CopyEnv) (fs0 : FSState) : FSState :=
  ⟨(afterCreate (afterRemove env fs0)).targetExists,
   (afterCreate (afterRemove env fs0)).files ++ copiedNames env⟩

/-- Model of `copy_files` (functions.rs lines 161-191): remove the target
directory discarding any removal error, recreate it, attempt every copy, and
end with a panic reporting the collected errors when there is at least one. -/
def copy_files (env : CopyEnv) (fs0 : FSState) : CopyOutcome :=
  if copyErrors env = [] then .ok (finalFS env fs0)
  else .panicked (copyErrors env) (finalFS env fs0)

/-! ## C7 -/

/-- C7: `copy_files` aborts exactly when at least one walk or copy error
occurred, reporting the whole collected error list, and it attempts every
copy: the errors and the successful copies both accumulate over the entire
walk (they distribute over concatenation of walks), so an early failure never
suppresses a later copy or a later error. -/
theorem copy_files_error_accumulation (env : CopyEnv) (fs0 : FSState) :
    (copy_files env fs0 = .ok (finalFS env fs0) ↔ copyErrors env = []) ∧
    (copyErrors env ≠ [] →
      copy_files env fs0 = .panicked (copyErrors env) (finalFS env fs0)) ∧
    (∀ w1 w2 cp rm, copyErrors ⟨w1 ++ w2, cp, rm⟩ =
      copyErrors ⟨w1, cp, rm⟩ ++ copyErrors ⟨w2, cp, rm⟩) ∧
    (∀ w1 w2 cp rm, copiedNames ⟨w1 ++ w2, cp, rm⟩ =
      copiedNames ⟨w1, cp, rm⟩ ++ copiedNames ⟨w2, cp, rm⟩) := by
  refine ⟨?_, ?_, ?_, ?_⟩
  · constructor
    · intro h
      by_contra hne
      simp [copy_files, hne] at h
    · intro h
      simp [copy_files, h]
  · intro h
    simp [copy_files, h]
  · intro w1 w2 cp rm
    simp [copyErrors, walkResults, List.filterMap_append]
  · intro w1 w2 cp rm
    simp [copiedNames, walkResults, List.filterMap_append]

/-- Environment for the C7 witness: a walk error, then a failing copy, then a
succeeding copy. -/
def envC7 : CopyEnv :=
  ⟨[.error (.other "walkerr"), .ok ⟨"tendermint.bad.rs", true⟩,
    .ok ⟨"tendermint.good.rs", true⟩],
   fun e => if e.fileName = "tendermint.bad.rs" then .error (.other "copyerr")
            else .ok (),
   .ok ()⟩

/-- C7 witness: with a walk error and a failing copy before a succeeding one,
`copy_files` panics with both errors, and the later file was still copied. -/
theorem copy_files_error_accumulation_witness :
    copy_files envC7 ⟨false, []⟩ =
      .panicked [.other "walkerr", .other "copyerr"]
        ⟨true, ["tendermint.good.rs"]⟩ := by
  rw [(copy_files_error_accumulation envC7 ⟨false, []⟩).2.1 (by decide)]
  decide

/-! ## C8 -/

/-- Environment for the C8 counterexample: removal of the existing target
directory fails with a permission error (not `NotFound`), and one file copies
successfully. -/
def envC8 : CopyEnv :=
  ⟨[.ok ⟨"tendermint.x.rs", true⟩], fun _ => .ok (),
   .error (.other "permission denied")⟩

/-- C8, counterexample: the removal of the target directory fails with an
error other than `NotFound`; `copy_files` ignores it (the run still returns
normally) and the prior content `old.rs` survives next to the one file copied
in the run, so the target does not contain exactly the files copied in that
run. -/
theorem copy_files_remove_error_counterexample :
    copy_files envC8 ⟨true, ["old.rs"]⟩ =
      .ok ⟨true, ["old.rs", "tendermint.x.rs"]⟩ ∧
    copiedNames envC8 = ["tendermint.x.rs"] ∧
    ["old.rs", "tendermint.x.rs"] ≠ ["tendermint.x.rs"] := by
  refine ⟨by decide, by decide, by decide⟩

/-- C8 (amended): `copy_files` removes the target directory ignoring any
removal error, not only `NotFound`, and recreates it; provided the removal
actually succeeded (or the directory was absent), a successful run leaves the
target holding exactly the files copied in that run. -/
theorem copy_files_full_replace (env : CopyEnv) (fs0 : FSState) (fs1 : FSState)
    (h : fs0.targetExists = false ∨ env.removeResult = .ok ())
    (hok : copy_files env fs0 = .ok fs1) :
    fs1.files = copiedNames env ∧ fs1.targetExists = true := by
  have hfs : finalFS env fs0 = ⟨true, copiedNames env⟩ := by
    rcases h with h | h
    · simp [finalFS, afterRemove, afterCreate, h]
    · rcases h0 : fs0.targetExists
      · simp [finalFS, afterRemove, afterCreate, h0]
      · simp [finalFS, afterRemove, afterCreate, h0, h]
  by_cases he : copyErrors env = []
  · unfold copy_files at hok
    rw [if_pos he, hfs] at hok
    cases hok
    exact ⟨rfl, rfl⟩
  · unfold copy_files at hok
    rw [if_neg he] at hok
    simp at hok

/-- Environment for the C8 witness: an absent target directory and two
successful copies. -/
def envC8w : CopyEnv :=
  ⟨[.ok ⟨"tendermint.a.rs", true⟩, .ok ⟨"tendermint.b.rs", true⟩],
   fun _ => .ok (), .ok ()⟩

/-- C8 witness: with an absent target directory and two successful copies, a
successful run leaves exactly the copied files in the target. -/
theorem copy_files_full_replace_witness :
    (FSState.mk true ["tendermint.a.rs", "tendermint.b.rs"]).files =
      copiedNames envC8w ∧
    (FSState.mk true ["tendermint.a.rs", "tendermint.b.rs"]).targetExists
      = true :=
  copy_files_full_replace envC8w ⟨false, ["stale.rs"]⟩
    ⟨true, ["tendermint.a.rs", "tendermint.b.rs"]⟩ (Or.inl rfl) (by decide)

/-! ## Model of `generate_tendermint_lib` (functions.rs lines 281-289)

The struct `TendermintVersion` lives in `constants.rs`, which is not part of
the sources at hand; it is reconstructed from its two uses (`version.ident`,
`version.commitish`) and the spec's data model ("Version: an identifier plus
the exact commitish used to build it").  The output file is modelled as the
list of lines written by `writeln!`, plus a flag recording that `File::create`
ran and a flag recording whether the function panicked. -/

/-- Modelled from the spec: a `TendermintVersion` carries the module
identifier and the commitish the snapshot was built from (`constants.rs` is
not among the sources; the fields are those read by `functions.rs`). -/
structure TendermintVersion where
  ident : String
  commitish : String
  deriving DecidableEq

/-- Observable outcome of `generate_tendermint_lib`: whether the output file
was created, the lines written to it (in order), and whether the function
panicked before completing. -/
structure LibOutput where
  fileCreated : Bool
  lines : List String
  panicked : Bool
  deriving DecidableEq

/-- Model of `generate_tendermint_lib` (functions.rs lines 281-289): the
output file is created first, one `pub mod <ident>;` line is written per
version in input order, then `versions.last().unwrap()` panics on an empty
slice and otherwise a `pub use <ident>::*;` line re-exports the last
version. -/
def generate_tendermint_lib (versions : List TendermintVersion) : LibOutput :=
  let modLines := versions.map fun v => "pub mod " ++ v.ident ++ ";"
  match versions.getLast? with
  | some last =>
    ⟨true, modLines ++ ["pub use " ++ last.ident ++ "::*;"], false⟩
  | none => ⟨true, modLines, true⟩

/-! ## C6 -/

/-- C6: for a non-empty version sequence, the aggregator declares one
`pub mod <ident>;` per version in input order and then re-exports, with
`pub use <ident>::*;`, the contents of the last version of the input
sequence. -/
theorem generate_tendermint_lib_order_and_reexport
    (versions : List TendermintVersion) (h : versions ≠ []) :
    generate_tendermint_lib versions =
      ⟨true,
       (versions.map fun v => "pub mod " ++ v.ident ++ ";") ++
         ["pub use " ++ (versions.getLast h).ident ++ "::*;"],
       false⟩ := by
  unfold generate_tendermint_lib
  rw [List.getLast?_eq_getLast_of_ne_nil h]

/-- C6 witness: with the input order `[v0_38, v0_34]`, whose last identifier
is lexically smaller than the first, the re-export targets `v0_34`, the last
version of the input sequence. -/
theorem generate_tendermint_lib_order_and_reexport_witness :
    generate_tendermint_lib [⟨"v0_38", "aaa"⟩, ⟨"v0_34", "bbb"⟩] =
      ⟨true, ["pub mod v0_38;", "pub mod v0_34;", "pub use v0_34::*;"],
       false⟩ := by
  rw [generate_tendermint_lib_order_and_reexport
    [⟨"v0_38", "aaa"⟩, ⟨"v0_34", "bbb"⟩] (by decide)]
  decide

/-! ## C9 -/

/-- C9: called on an empty version slice, `generate_tendermint_lib` has
already created the output file, writes no line, and panics on
`versions.last().unwrap()`, so no re-export line is ever produced. -/
theorem generate_tendermint_lib_empty_panics :
    generate_tendermint_lib [] = ⟨true, [], true⟩ ∧
    (generate_tendermint_lib []).lines.filter
      (fun l => strHasPre "pub use " l) = [] := by
  constructor <;> rfl

/-! ## Model of the `nullable` serializers (proto/src/serializers/nullable.rs)

Following the claim, the serde encoding is modelled as an `Option` value:
`serializer.serialize_none()` is `none` and serializing the value itself is
`some`.  `T::default()` is Lean's `default`, and Rust's `PartialEq` test is
decidable equality. -/

namespace nullable

/-- Model of `nullable::serialize` (nullable.rs lines 14-26): the default
value of `T` is encoded as `none`, any other value as itself. -/
def serialize {T : Type} [DecidableEq T] [Inhabited T] (value : T) :
    Option T :=
  if value = default then none else some value

/-- Model of `nullable::deserialize` (nullable.rs lines 5-11):
`Option::<T>::deserialize(..)?.unwrap_or_default()`, i.e. `none` becomes the
default value and `some v` becomes `v`. -/
def deserialize {T : Type} [Inhabited T] (o : Option T) : T :=
  o.getD default

end nullable

/-! ## C10 -/

/-- C10: `nullable.serialize` emits the `none` encoding exactly for the
default value of `T` and otherwise serializes the value itself;
`nullable.deserialize` maps `none` to the default value and `some v` to `v`;
consequently deserialization composed with serialization is the identity on
every value of `T`. -/
theorem nullable_serialize_deserialize_round_trip
    {T : Type} [DecidableEq T] [Inhabited T] :
    (∀ v : T, nullable.serialize v = none ↔ v = default) ∧
    (∀ v : T, v ≠ default → nullable.serialize v = some v) ∧
    (nullable.deserialize (none : Option T) = (default : T)) ∧
    (∀ v : T, nullable.deserialize (some v) = v) ∧
    (∀ v : T, nullable.deserialize (nullable.serialize v) = v) := by
  refine ⟨?_, ?_, rfl, fun v => rfl, ?_⟩
  · intro v
    constructor
    · intro h
      by_contra hne
      simp [nullable.serialize, hne] at h
    · intro h
      simp [nullable.serialize, h]
  · intro v h
    simp [nullable.serialize, h]
  · intro v
    by_cases h : v = default
    · simp [nullable.serialize, nullable.deserialize, h]
    · simp [nullable.serialize, nullable.deserialize, h]

/-- C10 witness: over `Nat`, the default value `0` serializes to `none` and
the round trip is the identity at `5`. -/
theorem nullable_serialize_deserialize_round_trip_witness :
    nullable.serialize (0 : Nat) = none ∧
    nullable.deserialize (nullable.serialize (5 : Nat)) = 5 :=
  ⟨(nullable_serialize_deserialize_round_trip.1 0).mpr rfl,
   nullable_serialize_deserialize_round_trip.2.2.2.2 5⟩

/-! ## Model of `generate_tendermint_mod` (functions.rs lines 213-279)

Only the content generation is modelled: the walk of `prost_dir` collects the
file names (regular files named `tendermint.*.rs`, sorted and deduplicated by
the `BTreeSet`), and the function is given that collected list.  The constant
`TENDERMINT_REPO` lives in `constants.rs`, which is not among the sources, so
the repository URL is passed as a parameter.  Literal braces in the generated
text are written with their character escapes. -/

/-- Split a character list on a separator character; the separator is
dropped, empty pieces are kept.  This models Rust's `str::split` with a
character pattern. -/
def splitOnChar (sep : Char) : List Char → List (List Char)
  | [] => [[]]
  | c :: rest =>
    if c = sep then [] :: splitOnChar sep rest
    else
      match splitOnChar sep rest with
      | l :: ls => (c :: l) :: ls
      | [] => [[c]]

/-- Model of Rust `split('.')` on a string. -/
def splitDot (s : String) : List String :=
  (splitOnChar '.' s.data).map String.mk

/-- Model of `tab.repeat(n)` for the four-space tab of the generator. -/
def tabRep : Nat → String
  | 0 => ""
  | n + 1 => "    " ++ tabRep n

/-- The innermost line of a per-file block (functions.rs lines 245-250): the
inclusion of the generated file by relative path, indented `n` tabs. -/
def inclStmt (ident fileName : String) (n : Nat) : String :=
  tabRep n ++ "include!(\"../prost/" ++ ident ++ "/" ++ fileName ++ "\");"

/-- One wrapping step of the generator loop (functions.rs line 258): a named
module declaration at indentation depth `d` around the accumulated text. -/
def wrapOne (part : String) (d : Nat) (inner : String) : String :=
  tabRep d ++ "pub mod " ++ part ++ " \x7b\n" ++ inner ++ "\n" ++
    tabRep d ++ "\x7d"

/-- The generator loop (functions.rs lines 252-259): consume the reversed
segment list from innermost to outermost, decrementing the tab count before
each wrap. -/
def wrapLoop : List String → Nat → String → String
  | [], _, inner => inner
  | p :: rest, c, inner => wrapLoop rest (c - 1) (wrapOne p (c - 1) inner)

/-- The segment list of a collected file name (functions.rs lines 234-241):
strip the `tendermint.` prefix and the `.rs` suffix (each `unwrap` modelled as
`none` on failure), split on `.` and reverse. -/
def fileParts (fileName : String) : Option (List String) :=
  (stripPre "tendermint." fileName).bind fun s1 =>
    (stripSuf ".rs" s1).map fun core => (splitDot core).reverse

/-- The per-file block of `generate_tendermint_mod`: the inclusion statement
wrapped by the generator loop, starting with a tab count equal to the number
of segments. -/
def fileBlock (ident fileName : String) : Option String :=
  (fileParts fileName).map fun parts =>
    wrapLoop parts parts.length (inclStmt ident fileName parts.length)

/-- Specification-side nested wrapping: consuming the segments of the dotted
namespace from the outermost to the innermost, each named module declaration
is indented one level deeper than the declaration enclosing it, around a body
one level deeper still. -/
def specWrap : List String → Nat → String → String
  | [], _, inner => inner
  | p :: rest, d, inner => wrapOne p d (specWrap rest (d + 1) inner)

theorem wrapLoop_append (xs : List String) (p : String) :
    ∀ (c : Nat) (inner : String),
    wrapLoop (xs ++ [p]) c inner =
      wrapOne p (c - xs.length - 1) (wrapLoop xs c inner) := by
  induction xs with
  | nil => intro c inner; simp [wrapLoop]
  | cons x xs ih =>
    intro c inner
    have e1 : wrapLoop ((x :: xs) ++ [p]) c inner =
        wrapLoop (xs ++ [p]) (c - 1) (wrapOne x (c - 1) inner) := rfl
    have e2 : wrapLoop (x :: xs) c inner =
        wrapLoop xs (c - 1) (wrapOne x (c - 1) inner) := rfl
    rw [e1, ih, e2]
    have hn : c - 1 - xs.length - 1 = c - (x :: xs).length - 1 := by
      simp only [List.length_cons]
      omega
    rw [hn]

theorem wrapLoop_reverse (l : List String) :
    ∀ (d : Nat) (inner : String),
    wrapLoop l.reverse (d + l.length) inner = specWrap l d inner := by
  induction l with
  | nil => intro d inner; simp [wrapLoop, specWrap]
  | cons p rest ih =>
    intro d inner
    rw [List.reverse_cons, wrapLoop_append]
    have h1 : d + (p :: rest).length - rest.reverse.length - 1 = d := by
      simp only [List.length_cons, List.length_reverse]
      omega
    have h2 : d + (p :: rest).length = (d + 1) + rest.length := by
      simp only [List.length_cons]
      omega
    rw [h1, h2, ih (d + 1)]
    rfl

theorem fileParts_append (core : String) :
    fileParts ("tendermint." ++ (core ++ ".rs")) =
      some ((splitDot core).reverse) := by
  unfold fileParts
  rw [stripPre_append, Option.some_bind', stripSuf_append, Option.map_some']

/-! ## C5 -/

/-- C5: for every collected file name `tendermint.<core>.rs`, the per-file
block of `generate_tendermint_mod` strips the `tendermint.` prefix and the
`.rs` suffix, splits the rest on `.`, reverses the segments, builds the
`include!` statement referencing the file by relative path, and wraps it in
one named module declaration per segment from innermost to outermost, each
nesting level indented one four-space tab deeper than the declaration
enclosing it — that is, the block equals the specification-side nested
wrapping `specWrap` of the unreversed segments. -/
theorem generate_tendermint_mod_file_block_spec (ident core : String) :
    fileBlock ident ("tendermint." ++ (core ++ ".rs")) =
      some (specWrap (splitDot core) 0
        (inclStmt ident ("tendermint." ++ (core ++ ".rs"))
          (splitDot core).length)) := by
  unfold fileBlock
  rw [fileParts_append, Option.map_some']
  have h := wrapLoop_reverse (splitDot core) 0
    (inclStmt ident ("tendermint." ++ (core ++ ".rs"))
      (splitDot core).length)
  rw [Nat.zero_add] at h
  rw [List.length_reverse, h]

/-- Model of the full content built by `generate_tendermint_mod`
(functions.rs lines 229-272): the header comment, one block per collected
file name, and the trailing `meta` module holding the repository URL and the
commitish as string constants. -/
def modContent (repoUrl ident commitish : String) (fileNames : List String) :
    Option String :=
  (fileNames.foldl
    (fun acc fn =>
      acc.bind fun content =>
        (fileBlock ident fn).map fun block =>
          content ++ "\n" ++ block ++ "\n")
    (some "//! Tendermint-proto auto-generated sub-modules for Tendermint\n")).map
    fun content =>
      content ++ "\npub mod meta \x7b\n    pub const REPOSITORY: &str = \"" ++
        repoUrl ++ "\";\n    pub const COMMITISH: &str = \"" ++ commitish ++
        "\";\n\x7d\n"

/-! ## A structural parser for the generated module text (used by C4)

The emitted text is judged structurally: lines are split on newlines,
indentation is ignored, `pub mod <name>` opens a container closed by a brace
line, and `include!` and `pub const` lines are leaves.  Re-declared container
names at the same level are merged, mirroring the additive module semantics
of the target language that the generator relies on. -/

/-- Split a character list into lines on the newline character. -/
def splitLines (cs : List Char) : List (List Char) :=
  splitOnChar '\n' cs

/-- Strip leading spaces from a line. -/
def dropSpaces (l : List Char) : List Char :=
  l.dropWhile fun c => c = ' '

/-- A node of the parsed module tree: a named container, an inclusion of a
generated file by path, or a string constant. -/
inductive ModItem where
  | mod (name : String) (items : List ModItem)
  | incl (path : String)
  | constStr (name value : String)

/-- Recursive-descent parse of a block: returns the items parsed up to a
closing brace line (or the end of input) together with the remaining lines.
Blank lines and comment lines are skipped; the fuel bounds the recursion. -/
def parseItems : Nat → List (List Char) → Option (List ModItem × List (List Char))
  | 0, _ => none
  | _ + 1, [] => some ([], [])
  | fuel + 1, line :: rest =>
    let t := dropSpaces line
    if t = [] then parseItems fuel rest
    else if (dropPre "//".data t).isSome then parseItems fuel rest
    else if t = "\x7d".data then some ([], rest)
    else
      match dropPre "pub mod ".data t with
      | some t1 =>
        match dropSuf " \x7b".data t1 with
        | some nm =>
          match parseItems fuel rest with
          | some (inner, rest1) =>
            match parseItems fuel rest1 with
            | some (sibs, rest2) =>
              some (.mod (String.mk nm) inner :: sibs, rest2)
            | none => none
          | none => none
        | none => none
      | none =>
        match dropPre "include!(\"".data t with
        | some t1 =>
          match dropSuf "\");".data t1 with
          | some path =>
            match parseItems fuel rest with
            | some (sibs, rest1) => some (.incl (String.mk path) :: sibs, rest1)
            | none => none
          | none => none
        | none =>
          match dropPre "pub const ".data t with
          | some t1 =>
            match dropSuf "\";".data t1 with
            | some body =>
              let nm := body.takeWhile fun c => c ≠ ':'
              let val := (body.dropWhile fun c => c ≠ '"').drop 1
              match parseItems fuel rest with
              | some (sibs, rest1) =>
                some (.constStr (String.mk nm) (String.mk val) :: sibs, rest1)
              | none => none
            | none => none
          | none => none

/-- Parse a whole generated file: every line must be consumed. -/
def parseDoc (s : String) : Option (List ModItem) :=
  let lines := splitLines s.data
  match parseItems (lines.length + 1) lines with
  | some (items, []) => some items
  | _ => none

/-- Whether a container with the given name occurs in an item list. -/
def hasMod (n : String) : List ModItem → Bool
  | [] => false
  | .mod m _ :: rest => if m = n then true else hasMod n rest
  | _ :: rest => hasMod n rest

/-- Merge re-declared containers of the same name at the same level,
recursively, keeping first-occurrence order; the fuel bounds the nesting
depth. -/
def mergeItems : Nat → List ModItem → List ModItem
  | 0, items => items
  | fuel + 1, items =>
    items.foldl
      (fun acc it =>
        match it with
        | .mod n inner =>
          if hasMod n acc then
            acc.map fun x =>
              match x with
              | .mod m ex =>
                if m = n then .mod m (mergeItems fuel (ex ++ inner))
                else .mod m ex
              | other => other
          else acc ++ [.mod n (mergeItems fuel inner)]
        | other => acc ++ [other])
      []

/-! ## C4 -/

/-- C4: for the collected file-name set `tendermint.a.b.rs`,
`tendermint.a.c.rs`, the structural parse of the text generated by
`generate_tendermint_mod` (under the additive module-merging semantics the
generator relies on) contains a single outer container `a` holding the two
inner containers `b` and `c`, each including its respective generated file,
followed by the `meta` container. -/
theorem generate_tendermint_mod_nested_structure :
    ((modContent "https://github.com/tendermint/tendermint" "v1" "deadbeef"
        ["tendermint.a.b.rs", "tendermint.a.c.rs"]).bind parseDoc).map
      (mergeItems 8) =
    some
      [ModItem.mod "a"
        [ModItem.mod "b" [ModItem.incl "../prost/v1/tendermint.a.b.rs"],
         ModItem.mod "c" [ModItem.incl "../prost/v1/tendermint.a.c.rs"]],
       ModItem.mod "meta"
        [ModItem.constStr "REPOSITORY"
           "https://github.com/tendermint/tendermint",
         ModItem.constStr "COMMITISH" "deadbeef"]] := by
  rfl
